import Mathlib

/-!
Shallow embedding of the checkpointed, resumable, rate-limited crawl engine
of the `mal_anime` scraper (`src/myanimelist/src/mal_anime/`), together with
theorems settling the behavioural claims about it.

The embedding follows the Python source:
  * `anime_checkpoint.py` — `AnimeCheckpointHandler.load_checkpoint` /
    `save_checkpoint` / `mark_completed` / `is_completed`;
  * `utils.py` — `LETTERS`, `PAGE_SIZE`, `paginate_anime`;
  * `scraper.py` — `MALAnimeScraper.scrape_all_anime` (the per-item loop);
  * `retry.py` — `InterceptedSession.request`, the module-level `session`,
    and `make_request` decorated with tenacity
    `retry(wait=wait_exponential(multiplier=1, min=1, max=60), stop=stop_never)`.

File contents and wall-clock time are modelled abstractly: the serialized
JSON object is represented by its abstract record (`CheckpointFile`), and
`time.time()` / `time.sleep` by an exact rational clock.
-/

namespace MalAnime

/-! ## Checkpoint data model (`anime_checkpoint.py`) -/

/-- The in-memory state of `AnimeCheckpointHandler`: the fields
`completed_ids : Set[int]`, `current_letter : Optional[str]`,
`current_page : int` (non-negative in every state the scraper produces). -/
structure CheckpointState where
  completed_ids : Finset Int
  current_letter : Option String
  current_page : Nat
deriving DecidableEq

/-- The abstract content of the checkpoint JSON file:
`{"completed_ids": [int, ...], "current_letter": string|null, "current_page": int}`.
A JSON array is ordered, so `completed_ids` is a list here. -/
structure CheckpointFile where
  completed_ids : List Int
  current_letter : Option String
  current_page : Nat
deriving DecidableEq, Repr

/-- The state `AnimeCheckpointHandler.__init__` starts from:
`completed_ids = set()`, `current_letter = None`, `current_page = 0`. -/
def defaultState : CheckpointState :=
  { completed_ids := ∅, current_letter := none, current_page := 0 }

/-- Serialization performed by `save_checkpoint`:
`{"completed_ids": list(self.completed_ids), ...}`.  Python enumerates the
set in an unspecified order; the embedding picks the sorted enumeration as
the canonical one (the claims treat order as not significant). -/
def serializeCheckpoint (st : CheckpointState) : CheckpointFile :=
  { completed_ids := st.completed_ids.sort (· ≤ ·)
  , current_letter := st.current_letter
  , current_page := st.current_page }

/-- What `load_checkpoint` finds when it runs: no file
(`Path(...).exists()` false), an unreadable file (`open` raises), a corrupt
file (`json.load` or the field conversions raise), or a successfully parsed
JSON record. -/
inductive LoadInput where
  | absent
  | unreadable
  | corrupt
  | parsed (f : CheckpointFile)
deriving DecidableEq

/-- `AnimeCheckpointHandler.load_checkpoint`, as a total function on the
possible outcomes of the file read.  The `except Exception` arm (and the
missing-file arm, because `__init__` initialized the fields) leaves the
empty default state; a parsed record populates the fields, the JSON list
becoming a set again via `set(...)`. -/
def load_checkpoint : LoadInput → CheckpointState
  | .absent => defaultState
  | .unreadable => defaultState
  | .corrupt => defaultState
  | .parsed f =>
      { completed_ids := f.completed_ids.toFinset
      , current_letter := f.current_letter
      , current_page := f.current_page }

/-- File-system operations relevant to checkpoint saving.  `truncWrite`
is `open(path, "w")` followed by a complete `json.dump` (the open
truncates at once, the dump fills the file); `rename` is `os.rename`. -/
inductive FsOp where
  | truncWrite (path : String) (content : CheckpointFile)
  | rename (src dst : String)
deriving DecidableEq

/-- The sequence of file-system operations `save_checkpoint` performs:
a single in-place `open(self.checkpoint_file, "w")` + `json.dump`.
No temporary file and no rename appear in the source. -/
def save_checkpoint_ops (st : CheckpointState) (path : String) : List FsOp :=
  [FsOp.truncWrite path (serializeCheckpoint st)]

/-- Durable content of the checkpoint path: a valid serialized record, or
the truncated/partial content left by an interrupted write. -/
inductive FileState where
  | valid (f : CheckpointFile)
  | truncated
deriving DecidableEq

/-- Crash semantics of the first operation of `save_checkpoint`: `open(path, "w")`
truncates the target immediately, so a crash between that truncation and the
completed `json.dump` leaves the target truncated. -/
def crashDuringSave (old : FileState) (st : CheckpointState) (path : String) : FileState :=
  match save_checkpoint_ops st path with
  | FsOp.truncWrite p _ :: _ => if p = path then FileState.truncated else old
  | _ => old

/-- Content equivalence of two checkpoint files: same cursor, and the same
set of completed IDs (list order, and multiplicity, not significant). -/
def contentEquiv (f g : CheckpointFile) : Prop :=
  f.completed_ids.toFinset = g.completed_ids.toFinset ∧
  f.current_letter = g.current_letter ∧
  f.current_page = g.current_page

/-! ## Pagination (`utils.py`) -/

/-- An item stub is identified by its integer id (`int(anime_id)`). -/
abbrev Item := Int

/-- `PAGE_SIZE = 50` in `utils.py`. -/
def PAGE_SIZE : Nat := 50

/-- The alphabet string the source filters: `".ABCDEFGHIJKLMNOPQRSTUVWXYZ"`. -/
def sourceAlphabet : List Char := ".ABCDEFGHIJKLMNOPQRSTUVWXYZ".toList

/-- `LETTERS = [l for l in ".ABCDEFGHIJKLMNOPQRSTUVWXYZ" if l != "."]`:
each element is a one-character string. -/
def LETTERS : List String :=
  (sourceAlphabet.filter (fun c => c ≠ '.')).map (fun c => String.mk [c])

/-- A model of the remote listing: for each partition key (letter), the
finite sequence of non-empty listing pages the site would serve, each page
being its list of item-stub ids.  A page index past the end of the list is
served as an empty page (no entries match the regex). -/
abbrev Site := String → List (List Item)

/-- Starting position computed at the top of `paginate_anime`:
`start_letter_idx = LETTERS.index(letter)` and `start_page = page` when the
checkpoint carries a letter that is in `LETTERS`, else `(0, 0)`.
(An absent letter is `None`, which is falsy; an empty or unknown string is
not in `LETTERS`; both leave the default.) -/
def startPos (cp : CheckpointState) : Nat × Nat :=
  match cp.current_letter with
  | some l => if l ∈ LETTERS then (LETTERS.indexOf l, cp.current_page) else (0, 0)
  | none => (0, 0)

/-- The page indices the `while True` loop of `paginate_anime` fetches for
one letter, starting at page `p`, where `rest` is the site's remaining page
list from page `p` on.  Mirrors the loop body: fetch page `p`; if it has no
entries, break; otherwise yield its entries and, if it has strictly fewer
than `PAGE_SIZE` entries, break, else continue with page `p + 1`. -/
def visitSuffix (rest : List (List Item)) (p : Nat) : List Nat :=
  match rest with
  | [] => [p]
  | entries :: more =>
      if entries.length = 0 then [p]
      else if entries.length < PAGE_SIZE then [p]
      else p :: visitSuffix more (p + 1)

/-- The `(letter, page)` fetch trace of the outer `for idx, letter in
enumerate(LETTERS[start_letter_idx:], start_letter_idx)` loop: the first
letter starts at `start_page` (`page = start_page if idx == start_letter_idx
else 0`), every later letter starts at page 0. -/
def fetchTrace (site : Site) (letters : List String) (firstStart : Nat) :
    List (String × Nat) :=
  match letters with
  | [] => []
  | l :: rest =>
      ((visitSuffix ((site l).drop firstStart) firstStart).map (fun p => (l, p)))
        ++ fetchTrace site rest 0

/-- The full fetch trace of `paginate_anime` resumed from checkpoint `cp`. -/
def paginate_anime_trace (site : Site) (cp : CheckpointState) : List (String × Nat) :=
  fetchTrace site (LETTERS.drop (startPos cp).1) (startPos cp).2

/-! ## The driver loop (`scraper.py` `scrape_all_anime` over `paginate_anime`) -/

/-- Observable state of one crawl run: the completed-id set (threaded through
the shared `AnimeCheckpointHandler`), the ids dispatched to the per-item
scrape pipeline, and the `(letter, page)` listing fetches issued. -/
structure RunState where
  completed : Finset Int
  dispatched : List Int
  fetched : List (String × Nat)
deriving DecidableEq

/-- Processing of one page's entries.  `paginate_anime` skips ids with
`checkpoint_handler.is_completed(anime_id)` and yields the rest;
`scrape_all_anime` scrapes each yielded id (dispatch) and, when the per-item
pipeline succeeds (`ok id`), calls `mark_completed` — a failing item is
logged and skipped, and the loop continues with the next entry. -/
def processEntries (ok : Int → Bool) (entries : List Item) (s : RunState) : RunState :=
  match entries with
  | [] => s
  | id :: rest =>
      if id ∈ s.completed then processEntries ok rest s
      else
        processEntries ok rest
          { s with
            dispatched := s.dispatched ++ [id]
            completed := if ok id then insert id s.completed else s.completed }

/-- The per-letter page loop of the run: fetch page `p` (recorded in
`fetched`), break on an empty page, otherwise process the entries and break
when the page is short, else continue with page `p + 1`. -/
def runSuffix (ok : Int → Bool) (pages : List (List Item)) (l : String) (p : Nat)
    (s : RunState) : RunState :=
  match pages with
  | [] => { s with fetched := s.fetched ++ [(l, p)] }
  | entries :: more =>
      if entries.length = 0 then { s with fetched := s.fetched ++ [(l, p)] }
      else if entries.length < PAGE_SIZE then
        processEntries ok entries { s with fetched := s.fetched ++ [(l, p)] }
      else
        runSuffix ok more l (p + 1)
          (processEntries ok entries { s with fetched := s.fetched ++ [(l, p)] })

/-- The outer letter loop of the run; the first letter starts at
`firstStart`, every later letter at page 0. -/
def runLetters (ok : Int → Bool) (site : Site) (letters : List String)
    (firstStart : Nat) (s : RunState) : RunState :=
  match letters with
  | [] => s
  | l :: rest =>
      runLetters ok site rest 0 (runSuffix ok ((site l).drop firstStart) l firstStart s)

/-- One run of `scrape_all_anime` driven by `paginate_anime`, started from
checkpoint state `cp`: resume position from `startPos`, completed set from
the checkpoint, no dispatches or fetches yet. -/
def scrape_all_anime_run (ok : Int → Bool) (site : Site) (cp : CheckpointState) : RunState :=
  runLetters ok site (LETTERS.drop (startPos cp).1) (startPos cp).2
    { completed := cp.completed_ids, dispatched := [], fetched := [] }

/-! ## Retry and pacing layer (`retry.py`) -/

/-- tenacity `wait_exponential(multiplier, min, max, exp_base)`:
`max(max(0, min), min(multiplier * exp_base ** attempt_number, max))`,
where `attempt_number` is the number of attempts already made when the wait
is computed (so the wait before the k-th retry sees `attempt_number = k`). -/
def wait_exponential (multiplier minDelay maxDelay expBase attempt : Nat) : Nat :=
  max (max 0 minDelay) (min (multiplier * expBase ^ attempt) maxDelay)

/-- The wait schedule `make_request` is decorated with:
`wait_exponential(multiplier=1, min=1, max=60)` (exp_base defaults to 2). -/
def makeRequestWait (attempt : Nat) : Nat := wait_exponential 1 1 60 2 attempt

/-- The delays (in seconds) slept after each of `n` consecutive failures of
one `make_request` call: the wait before the k-th retry (1-indexed) is
`makeRequestWait k`. -/
def retryDelays (n : Nat) : List Nat :=
  (List.range n).map (fun i => makeRequestWait (i + 1))

/-- tenacity stop conditions: `stop_never` and `stop_after_attempt(n)`. -/
inductive StopPolicy where
  | stop_never
  | stop_after_attempt (n : Nat)
deriving DecidableEq

/-- Whether a stop condition halts retrying after `attempts` attempts. -/
def stopCheck : StopPolicy → Nat → Bool
  | .stop_never, _ => false
  | .stop_after_attempt n, attempts => n ≤ attempts

/-- The stop condition `make_request` is decorated with: `stop=stop_never`,
written directly in the decorator — no parameter of `make_request` or of any
constructor selects it. -/
def makeRequestStop : StopPolicy := StopPolicy.stop_never

/-- Outcome of running the retry loop for an observation window of `fuel`
further attempts: success after some attempts, giving up (stop condition
reached after a failure), or still retrying when the window closes. -/
inductive FetchResult where
  | success (attempts : Nat)
  | gaveUp (attempts : Nat)
  | retrying (attempts : Nat)
deriving DecidableEq

/-- tenacity's retry loop: make an attempt; on success return, on failure
consult the stop condition with the number of attempts made so far and
either give up or retry.  `outcome k` tells whether the attempt made after
`k` previous attempts succeeds. -/
def retryLoop (outcome : Nat → Bool) (stop : StopPolicy) (attempts fuel : Nat) :
    FetchResult :=
  match fuel with
  | 0 => .retrying attempts
  | f + 1 =>
      if outcome attempts then .success (attempts + 1)
      else if stopCheck stop (attempts + 1) then .gaveUp (attempts + 1)
      else retryLoop outcome stop (attempts + 1) f

/-- `InterceptedSession`: per-instance fields `sleep_in_ms` and
`last_requested_at` (milliseconds).  Clock values are exact rationals. -/
structure InterceptedSession where
  sleep_in_ms : ℚ
  last_requested_at : ℚ
deriving DecidableEq

/-- `InterceptedSession.request` called at wall-clock time `now` (ms):
`delta = now - last_requested_at`; if `delta < sleep_in_ms`, sleep
`sleep_in_ms - delta`, so the request is issued (and `last_requested_at`
re-read) at `now + (sleep_in_ms - delta)`; otherwise it is issued at `now`.
Returns the issue time and the updated session. -/
def request (s : InterceptedSession) (now : ℚ) : ℚ × InterceptedSession :=
  if now - s.last_requested_at < s.sleep_in_ms then
    (now + (s.sleep_in_ms - (now - s.last_requested_at)),
     { s with last_requested_at := now + (s.sleep_in_ms - (now - s.last_requested_at)) })
  else
    (now, { s with last_requested_at := now })

/-- Issue times of a sequence of `request` calls on one session, the k-th
call entered at wall-clock time `ts[k]`. -/
def requestTrace (s : InterceptedSession) : List ℚ → List ℚ
  | [] => []
  | t :: ts => (request s t).1 :: requestTrace (request s t).2 ts

/-- The module-level shared instance: `session = InterceptedSession(sleep_in_ms=1000)`,
with `last_requested_at = 0` from `__init__`.  Every `make_request` call in
the process, from every caller, goes through this one object. -/
def moduleSession : InterceptedSession :=
  { sleep_in_ms := 1000, last_requested_at := 0 }

/-- Issue times of the `make_request` calls of the whole process (all
callers), which all route through `moduleSession`. -/
def makeRequestTrace (ts : List ℚ) : List ℚ := requestTrace moduleSession ts

/-- Whether a durable file state still holds a valid (parseable) record. -/
def FileState.isValidFile : FileState → Bool
  | .valid _ => true
  | .truncated => false

/-! ## Claims C1 - C3: checkpoint persistence -/

/-- C1 (counterexample): `save_checkpoint` does not write to a temporary
path and rename; at the default path and the empty state, its operation
trace is a single in-place truncating write, and no trace of the form
"write a temporary file, then rename it over the target" matches it. -/
theorem C1_counterexample :
    save_checkpoint_ops defaultState "anime_checkpoint.json" =
      [FsOp.truncWrite "anime_checkpoint.json" (serializeCheckpoint defaultState)] ∧
    ¬ ∃ tmp c, save_checkpoint_ops defaultState "anime_checkpoint.json" =
        [FsOp.truncWrite tmp c, FsOp.rename tmp "anime_checkpoint.json"] := by
  refine ⟨rfl, ?_⟩
  rintro ⟨tmp, c, h⟩
  simp [save_checkpoint_ops] at h

/-- C1 (amended): for every state and path, `save_checkpoint` performs a
single truncating write directly on the target path (no temporary file, no
rename), so a crash between the truncation performed by `open(path, "w")`
and the completed `json.dump` leaves the checkpoint file truncated — the
previously valid content is gone. -/
theorem C1_save_not_atomic (st : CheckpointState) (path : String) (old : CheckpointFile) :
    save_checkpoint_ops st path = [FsOp.truncWrite path (serializeCheckpoint st)] ∧
    crashDuringSave (FileState.valid old) st path = FileState.truncated ∧
    (crashDuringSave (FileState.valid old) st path).isValidFile = false := by
  refine ⟨rfl, ?_, ?_⟩ <;> simp [crashDuringSave, save_checkpoint_ops, FileState.isValidFile]

/-- C2: checkpoint state round-trips through the serialized file: loading
what `save_checkpoint` wrote restores exactly the in-memory state (for any
completed-ID set, optional letter and page), and saving what
`load_checkpoint` read reproduces content-equivalent file contents (same
cursor, same set of ids; list order and multiplicity not significant). -/
theorem C2_checkpoint_round_trip (st : CheckpointState) (f : CheckpointFile) :
    load_checkpoint (LoadInput.parsed (serializeCheckpoint st)) = st ∧
    contentEquiv (serializeCheckpoint (load_checkpoint (LoadInput.parsed f))) f := by
  constructor
  · cases st with
    | mk c l p => simp [load_checkpoint, serializeCheckpoint, Finset.sort_toFinset]
  · simp [contentEquiv, load_checkpoint, serializeCheckpoint, Finset.sort_toFinset]

/-- C3: `load_checkpoint` is a total function on every read outcome (never
raises), and on a missing, unreadable or corrupt file it returns the empty
default state: empty completed-ID set, no current letter, page 0. -/
theorem C3_load_degrades_to_default :
    load_checkpoint LoadInput.absent = defaultState ∧
    load_checkpoint LoadInput.unreadable = defaultState ∧
    load_checkpoint LoadInput.corrupt = defaultState ∧
    defaultState =
      { completed_ids := ∅, current_letter := none, current_page := 0 } :=
  ⟨rfl, rfl, rfl, rfl⟩

/-! ## Claims C4, C5, C9, C10: pagination and the driver loop -/

/-- A concrete site for the `[50, 50, 30]` scenario: partition `"A"` serves
pages of 50, 50 and 30 stubs, every other partition is empty. -/
def exSite : Site := fun l =>
  if l = "A" then
    [List.replicate 50 0, List.replicate 50 0, List.replicate 30 0]
  else []

/-- C4: a partition's pagination ends exactly when a fetched page has
strictly fewer stubs than `PAGE_SIZE` (zero included) — the loop stops on
that page — and otherwise continues with the next page; a partition serving
pages of sizes `[50, 50, 30]` is fetched at pages 0, 1, 2 and the next
partition then starts at page 0. -/
theorem C4_pagination_termination :
    (∀ (rest : List (List Item)) (entries : List Item) (p : Nat),
        (entries.length < PAGE_SIZE → visitSuffix (entries :: rest) p = [p]) ∧
        (¬ entries.length < PAGE_SIZE →
            visitSuffix (entries :: rest) p = p :: visitSuffix rest (p + 1))) ∧
    fetchTrace exSite ["A", "B"] 0 = [("A", 0), ("A", 1), ("A", 2), ("B", 0)] := by
  constructor
  · intro rest entries p
    constructor
    · intro h
      by_cases h0 : entries.length = 0 <;> simp [visitSuffix, h, h0]
    · intro h
      have h0 : ¬ entries.length = 0 := fun h0 => h (by simp [h0, PAGE_SIZE])
      simp [visitSuffix, h, h0]
  · decide

theorem C4_witness :
    ((List.replicate 30 (0 : Int)).length < PAGE_SIZE ∧
        visitSuffix [List.replicate 30 (0 : Int)] 5 = [5]) ∧
    (¬ (List.replicate 50 (0 : Int)).length < PAGE_SIZE ∧
        visitSuffix [List.replicate 50 (0 : Int)] 5 = 5 :: visitSuffix [] 6) :=
  ⟨⟨by decide, (C4_pagination_termination.1 [] (List.replicate 30 0) 5).1 (by decide)⟩,
   ⟨by decide, (C4_pagination_termination.1 [] (List.replicate 50 0) 5).2 (by decide)⟩⟩

/-- `processEntries` never removes an id from the completed set. -/
lemma processEntries_completed_mono (ok : Int → Bool) (e : List Item) (s : RunState)
    (x : Int) (h : x ∈ s.completed) : x ∈ (processEntries ok e s).completed := by
  induction e generalizing s with
  | nil => exact h
  | cons id rest ih =>
      by_cases hm : id ∈ s.completed
      · simpa only [processEntries, if_pos hm] using ih s h
      · simp only [processEntries, if_neg hm]
        apply ih
        dsimp only
        split
        · exact Finset.mem_insert_of_mem h
        · exact h

/-- An id that is already completed and not yet dispatched stays completed
and is never dispatched by `processEntries`. -/
lemma processEntries_inv (ok : Int → Bool) (e : List Item) (s : RunState) (x : Int)
    (h1 : x ∈ s.completed) (h2 : x ∉ s.dispatched) :
    x ∈ (processEntries ok e s).completed ∧ x ∉ (processEntries ok e s).dispatched := by
  induction e generalizing s with
  | nil => exact ⟨h1, h2⟩
  | cons id rest ih =>
      by_cases hm : id ∈ s.completed
      · simpa only [processEntries, if_pos hm] using ih s h1 h2
      · simp only [processEntries, if_neg hm]
        apply ih
        · dsimp only
          split
          · exact Finset.mem_insert_of_mem h1
          · exact h1
        · dsimp only
          intro hx
          rcases List.mem_append.mp hx with hx | hx
          · exact h2 hx
          · have hxid : x = id := by simpa using hx
            exact hm (hxid ▸ h1)

/-- `processEntries` does not issue listing fetches. -/
lemma processEntries_fetched (ok : Int → Bool) (e : List Item) (s : RunState) :
    (processEntries ok e s).fetched = s.fetched := by
  induction e generalizing s with
  | nil => rfl
  | cons id rest ih =>
      by_cases hm : id ∈ s.completed <;> simp only [processEntries, if_pos, if_neg, hm,
        if_true, if_false, ite_true, ite_false] <;> simp [ih]

/-- The completed/not-dispatched invariant is preserved by the per-letter
page loop. -/
lemma runSuffix_inv (ok : Int → Bool) (pages : List (List Item)) (l : String) (p : Nat)
    (s : RunState) (x : Int) (h1 : x ∈ s.completed) (h2 : x ∉ s.dispatched) :
    x ∈ (runSuffix ok pages l p s).completed ∧ x ∉ (runSuffix ok pages l p s).dispatched := by
  induction pages generalizing p s with
  | nil => exact ⟨h1, h2⟩
  | cons entries more ih =>
      simp only [runSuffix]
      split
      · exact ⟨h1, h2⟩
      · split
        · exact processEntries_inv ok entries _ x h1 h2
        · have h := processEntries_inv ok entries
            { s with fetched := s.fetched ++ [(l, p)] } x h1 h2
          exact ih _ _ h.1 h.2

/-- The completed/not-dispatched invariant is preserved by the letter loop. -/
lemma runLetters_inv (ok : Int → Bool) (site : Site) (letters : List String)
    (firstStart : Nat) (s : RunState) (x : Int)
    (h1 : x ∈ s.completed) (h2 : x ∉ s.dispatched) :
    x ∈ (runLetters ok site letters firstStart s).completed ∧
      x ∉ (runLetters ok site letters firstStart s).dispatched := by
  induction letters generalizing firstStart s with
  | nil => exact ⟨h1, h2⟩
  | cons l rest ih =>
      have h := runSuffix_inv ok ((site l).drop firstStart) l firstStart s x h1 h2
      exact ih _ _ h.1 h.2

/-- Every listing fetch issued by the page loop of letter `l` carries
partition key `l`. -/
lemma runSuffix_fetched (ok : Int → Bool) (pages : List (List Item)) (l : String)
    (p : Nat) (s : RunState) (q : String × Nat)
    (hq : q ∈ (runSuffix ok pages l p s).fetched) : q ∈ s.fetched ∨ q.1 = l := by
  induction pages generalizing p s with
  | nil =>
      rcases List.mem_append.mp hq with h | h
      · exact Or.inl h
      · right
        have : q = (l, p) := by simpa using h
        rw [this]
  | cons entries more ih =>
      simp only [runSuffix] at hq
      split at hq
      · rcases List.mem_append.mp hq with h | h
        · exact Or.inl h
        · right
          have : q = (l, p) := by simpa using h
          rw [this]
      · split at hq
        · rw [processEntries_fetched] at hq
          rcases List.mem_append.mp hq with h | h
          · exact Or.inl h
          · right
            have : q = (l, p) := by simpa using h
            rw [this]
        · rcases ih (p + 1) _ hq with h | h
          · rw [processEntries_fetched] at h
            rcases List.mem_append.mp h with h | h
            · exact Or.inl h
            · right
              have : q = (l, p) := by simpa using h
              rw [this]
          · exact Or.inr h

/-- Every listing fetch issued by the letter loop carries a partition key
from the letter list it was given. -/
lemma runLetters_fetched (ok : Int → Bool) (site : Site) (letters : List String)
    (firstStart : Nat) (s : RunState) (q : String × Nat)
    (hq : q ∈ (runLetters ok site letters firstStart s).fetched) :
    q ∈ s.fetched ∨ q.1 ∈ letters := by
  induction letters generalizing firstStart s with
  | nil => exact Or.inl hq
  | cons l rest ih =>
      rcases ih _ _ hq with h | h
      · rcases runSuffix_fetched ok _ l firstStart s q h with h2 | h2
        · exact Or.inl h2
        · exact Or.inr (h2 ▸ List.mem_cons_self l rest)
      · exact Or.inr (List.mem_cons_of_mem l h)

/-- The checkpoint of the resume scenario: completed ids `{5, 9}`, cursor
at letter `"B"`, page 2. -/
def cpResume : CheckpointState :=
  { completed_ids := {5, 9}, current_letter := some "B", current_page := 2 }

/-- C5: a fresh run started from checkpoint `{completed = {5, 9},
cursor = (B, 2)}` never dispatches item 5 or 9 to the per-item pipeline and
never fetches a listing page of partition `"A"` (the partition preceding
`"B"`), for every site content and every per-item success pattern. -/
theorem C5_resume_invariant (ok : Int → Bool) (site : Site) :
    ((scrape_all_anime_run ok site cpResume).dispatched.all
        (fun id => id != 5 && id != 9)) = true ∧
    ((scrape_all_anime_run ok site cpResume).fetched.all
        (fun q => q.1 != "A")) = true := by
  have hsp : startPos cpResume = (1, 2) := by decide
  have hrun : scrape_all_anime_run ok site cpResume =
      runLetters ok site (LETTERS.drop 1) 2
        { completed := cpResume.completed_ids, dispatched := [], fetched := [] } := by
    rw [scrape_all_anime_run, hsp]
  constructor
  · rw [hrun, List.all_eq_true]
    intro id hid
    have h5 := runLetters_inv ok site (LETTERS.drop 1) 2
      { completed := cpResume.completed_ids, dispatched := [], fetched := [] } 5
      (by decide) (by simp)
    have h9 := runLetters_inv ok site (LETTERS.drop 1) 2
      { completed := cpResume.completed_ids, dispatched := [], fetched := [] } 9
      (by decide) (by simp)
    simp only [Bool.and_eq_true, bne_iff_ne, ne_eq]
    constructor
    · intro h; exact h5.2 (h ▸ hid)
    · intro h; exact h9.2 (h ▸ hid)
  · rw [hrun, List.all_eq_true]
    intro q hq
    rcases runLetters_fetched ok site (LETTERS.drop 1) 2 _ q hq with h | h
    · simp at h
    · simp only [bne_iff_ne, ne_eq]
      intro hA
      rw [hA] at h
      exact (by decide : ("A" : String) ∉ LETTERS.drop 1) h

/-- Every id of the page that the per-item pipeline succeeds on ends up in
the completed set. -/
lemma processEntries_marks_success (ok : Int → Bool) (items : List Item) (id : Int)
    (hok : ok id = true) :
    ∀ s : RunState, id ∈ items → id ∈ (processEntries ok items s).completed := by
  induction items with
  | nil => intro s h; cases h
  | cons id0 rest ih =>
      intro s hmem
      by_cases hm : id0 ∈ s.completed
      · simp only [processEntries, if_pos hm]
        rcases List.mem_cons.mp hmem with rfl | h2
        · exact processEntries_completed_mono ok rest s id hm
        · exact ih _ h2
      · simp only [processEntries, if_neg hm]
        rcases List.mem_cons.mp hmem with rfl | h2
        · apply processEntries_completed_mono
          simp [hok]
        · exact ih _ h2

/-- An id the per-item pipeline fails on is never marked completed (unless
it already was). -/
lemma processEntries_not_marked (ok : Int → Bool) (items : List Item) (id : Int)
    (hok : ok id = false) :
    ∀ s : RunState, id ∉ s.completed → id ∉ (processEntries ok items s).completed := by
  induction items with
  | nil => intro s h; exact h
  | cons id0 rest ih =>
      intro s hns
      by_cases hm : id0 ∈ s.completed
      · simp only [processEntries, if_pos hm]
        exact ih _ hns
      · simp only [processEntries, if_neg hm]
        apply ih
        intro hc
        dsimp only at hc
        split at hc
        next hco =>
          rcases Finset.mem_insert.mp hc with h | h
          · rw [h] at hok
            rw [hok] at hco
            exact Bool.noConfusion hco
          · exact hns h
        next hco => exact hns hc

/-- The empty run state the driver starts from on a fresh crawl. -/
def initRun : RunState := { completed := ∅, dispatched := [], fetched := [] }

/-- C9: item isolation in the per-item loop.  On any page, every item the
pipeline succeeds on is marked completed, an item it fails on is not marked
(it stays absent from the completed set), and a failure aborts nothing: in
the 10-item page `[1..10]` where exactly item 7 fails, all 10 items are
still dispatched, the other 9 are marked completed, and 7 is absent from
the completed set. -/
theorem C9_item_isolation (items : List Item) (ok : Int → Bool) (s : RunState) :
    (∀ id, id ∈ items → ok id = true → id ∈ (processEntries ok items s).completed) ∧
    (∀ id, ok id = false → decide (id ∈ s.completed) = false →
        decide (id ∈ (processEntries ok items s).completed) = false) ∧
    ((processEntries (fun id => id != 7) [1,2,3,4,5,6,7,8,9,10] initRun).dispatched =
        [1,2,3,4,5,6,7,8,9,10] ∧
      decide ((7 : Int) ∈
        (processEntries (fun id => id != 7) [1,2,3,4,5,6,7,8,9,10] initRun).completed) =
          false ∧
      ∀ id ∈ ([1,2,3,4,5,6,8,9,10] : List Int),
        id ∈ (processEntries (fun id => id != 7) [1,2,3,4,5,6,7,8,9,10] initRun).completed) := by
  refine ⟨?_, ?_, by decide, by decide, by decide⟩
  · intro id hmem hok
    exact processEntries_marks_success ok items id hok s hmem
  · intro id hok hns
    rw [decide_eq_false_iff_not] at hns ⊢
    exact processEntries_not_marked ok items id hok s hns

theorem C9_witness :
    ((3 : Int) ∈ ([3] : List Item) ∧
      (3 : Int) ∈ (processEntries (fun _ => true) [3] initRun).completed) ∧
    decide ((4 : Int) ∈ (processEntries (fun _ => false) [4] initRun).completed) = false ∧
    (2 : Int) ∈
      (processEntries (fun id => id != 7) [1,2,3,4,5,6,7,8,9,10] initRun).completed :=
  ⟨⟨by decide, (C9_item_isolation [3] (fun _ => true) initRun).1 3 (by decide) rfl⟩,
   (C9_item_isolation [4] (fun _ => false) initRun).2.1 4 rfl (by decide),
   (C9_item_isolation [1,2,3,4,5,6,7,8,9,10] (fun id => id != 7) initRun).2.2.2.2
     2 (by decide)⟩

/-- C10: the partition sequence actually traversed is exactly the 26
letters `"A"`–`"Z"`: the `"."` catch-all key of the source alphabet string
is filtered out of `LETTERS`, and no run ever issues a listing fetch with
partition key `"."`, whatever the site content, the per-item outcomes and
the starting checkpoint. -/
theorem C10_letters_exclude_catchall (ok : Int → Bool) (site : Site)
    (cp : CheckpointState) :
    LETTERS = ["A", "B", "C", "D", "E", "F", "G", "H", "I", "J", "K", "L", "M",
               "N", "O", "P", "Q", "R", "S", "T", "U", "V", "W", "X", "Y", "Z"] ∧
    LETTERS.contains "." = false ∧
    ((scrape_all_anime_run ok site cp).fetched.all (fun q => q.1 != ".")) = true := by
  refine ⟨by decide, by decide, ?_⟩
  rw [List.all_eq_true]
  intro q hq
  rw [scrape_all_anime_run] at hq
  rcases runLetters_fetched ok site (LETTERS.drop (startPos cp).1) (startPos cp).2
      _ q hq with h | h
  · simp at h
  · have hL : q.1 ∈ LETTERS := List.mem_of_mem_drop h
    simp only [bne_iff_ne, ne_eq]
    intro hdot
    rw [hdot] at hL
    exact (by decide : ("." : String) ∉ LETTERS) hL

/-! ## Claims C6, C7, C8: retry, stop policy, pacing -/

/-- C6: backoff law of the retrying fetch layer.  On `n` consecutive
transient failures of one `make_request` call, the delay slept before the
k-th retry (1-indexed, `1 ≤ k ≤ n`) equals `base * 2^k` capped at the
configured maximum of 60 seconds, with `base = multiplier = 1`; the jitter
term is identically zero (bounded by zero). -/
theorem C6_backoff_law (n k : Nat) (h1 : 1 ≤ k) (h2 : k ≤ n) :
    (retryDelays n).getD (k - 1) 0 = min (1 * 2 ^ k) 60 := by
  have hk : k - 1 < n := by omega
  have hlen : k - 1 < (retryDelays n).length := by
    simpa [retryDelays] using hk
  rw [List.getD_eq_getElem _ _ hlen]
  simp only [retryDelays, List.getElem_map, List.getElem_range]
  have hk1 : k - 1 + 1 = k := by omega
  rw [hk1]
  have h2k : 2 ≤ 2 ^ k := by
    calc 2 = 2 ^ 1 := by norm_num
    _ ≤ 2 ^ k := Nat.pow_le_pow_right (by norm_num) h1
  simp only [makeRequestWait, wait_exponential]
  omega

theorem C6_witness :
    1 ≤ 3 ∧ 3 ≤ 5 ∧ (retryDelays 5).getD 2 0 = min (1 * 2 ^ 3) 60 :=
  ⟨by decide, by decide, C6_backoff_law 5 3 (by decide) (by decide)⟩

/-- Whether a fetch outcome is the retry layer giving up. -/
def FetchResult.hasGivenUp : FetchResult → Bool
  | .gaveUp _ => true
  | _ => false

/-- C7 (counterexample): the retry policy of `make_request` is not
selectable: it is the hard-coded `stop_never` (in particular no bounded
`stop_after_attempt` policy is in force), the stop condition never fires
even after a million attempts, and an always-failing fetch is still
retrying after 100 consecutive failures instead of surfacing a fatal
failure. -/
theorem C7_counterexample :
    makeRequestStop = StopPolicy.stop_never ∧
    (¬ ∃ n, makeRequestStop = StopPolicy.stop_after_attempt n) ∧
    stopCheck makeRequestStop 1000000 = false ∧
    retryLoop (fun _ => false) makeRequestStop 0 100 = FetchResult.retrying 100 := by
  refine ⟨rfl, ?_, rfl, by decide⟩
  rintro ⟨n, h⟩
  exact StopPolicy.noConfusion h

/-- C7 (amended): the retry policy of `make_request` is hard-coded in the
decorator to unbounded retries (`stop=stop_never`): the stop condition is
false at every attempt count, so the retry loop never gives up, whatever
the outcomes of the attempts — no bounded attempt count is selectable at
construction time. -/
theorem C7_retry_hardcoded_unbounded :
    makeRequestStop = StopPolicy.stop_never ∧
    (∀ k, stopCheck makeRequestStop k = false) ∧
    ∀ (outcome : Nat → Bool) (attempts fuel : Nat),
      (retryLoop outcome makeRequestStop attempts fuel).hasGivenUp = false := by
  refine ⟨rfl, fun k => rfl, ?_⟩
  intro outcome attempts fuel
  induction fuel generalizing attempts with
  | zero => rfl
  | succ f ih =>
      simp only [retryLoop]
      split
      · rfl
      · split
        · next hstop => exact Bool.noConfusion hstop
        · exact ih (attempts + 1)

/-- On any session, the issue time of a request is at least the session's
`last_requested_at` plus its `sleep_in_ms`. -/
lemma request_issue_ge (s : InterceptedSession) (t : ℚ) :
    s.last_requested_at + s.sleep_in_ms ≤ (request s t).1 := by
  simp only [request]
  split
  · next h =>
      dsimp only
      linarith
  · next h =>
      dsimp only
      linarith

lemma request_last (s : InterceptedSession) (t : ℚ) :
    (request s t).2.last_requested_at = (request s t).1 := by
  simp only [request]
  split <;> rfl

lemma request_sleep (s : InterceptedSession) (t : ℚ) :
    (request s t).2.sleep_in_ms = s.sleep_in_ms := by
  simp only [request]
  split <;> rfl

/-- C8 (amended): every two consecutive requests issued through one
`InterceptedSession` are separated by at least its `sleep_in_ms` (the
pacing state lives in per-instance fields), but all `make_request` calls of
the process route through the single module-level `moduleSession`, so in
the code as shipped the pacing is shared process-wide across all callers
rather than owned by each fetcher. -/
theorem C8_pacing (s : InterceptedSession) (ts : List ℚ) (i : Nat)
    (h : i + 1 < (requestTrace s ts).length) :
    (requestTrace s ts).getD i 0 + s.sleep_in_ms ≤ (requestTrace s ts).getD (i + 1) 0 ∧
    makeRequestTrace ts = requestTrace moduleSession ts := by
  refine ⟨?_, rfl⟩
  induction ts generalizing s i with
  | nil => simp [requestTrace] at h
  | cons t rest ih =>
      cases i with
      | zero =>
          cases rest with
          | nil => simp [requestTrace] at h
          | cons t2 rest2 =>
              show (request s t).1 + s.sleep_in_ms ≤ (request (request s t).2 t2).1
              have hg := request_issue_ge (request s t).2 t2
              rw [request_last, request_sleep] at hg
              exact hg
      | succ i =>
          have h2 : i + 1 < (requestTrace (request s t).2 rest).length := by
            simpa [requestTrace] using h
          have hi := ih (request s t).2 i h2
          rw [request_sleep] at hi
          simpa [requestTrace] using hi

theorem C8_witness :
    0 + 1 < (requestTrace moduleSession [10000, 10100]).length ∧
    (requestTrace moduleSession [10000, 10100]).getD 0 0 + moduleSession.sleep_in_ms ≤
      (requestTrace moduleSession [10000, 10100]).getD 1 0 :=
  ⟨by decide, (C8_pacing moduleSession [10000, 10100] 0 (by decide)).1⟩

/-- C8 (counterexample): pacing is not owned by each fetcher independently.
Two different callers issue their first `make_request` calls at times 10000
and 10100 (ms); through the shared module-level session the second caller's
very first request is postponed to 11000 by the first caller's history,
whereas a fetcher owning its own fresh pacing state would issue it at 10100
— strictly earlier. -/
theorem C8_counterexample :
    makeRequestTrace [10000, 10100] = [10000, 11000] ∧
    (request { sleep_in_ms := 1000, last_requested_at := 0 } 10100).1 = 10100 ∧
    (10100 : ℚ) < 11000 := by
  refine ⟨?_, ?_, by norm_num⟩ <;>
    norm_num [makeRequestTrace, requestTrace, request, moduleSession]

end MalAnime
